import Mathlib

/-! Host resolution in `kubernetes/types.go`.

A shallow embedding of `Host`, `ParseHost`, `GetHost`, `includes` and `Host.String`
from `src/kubernetes/types.go`, together with the two Go library functions they call
(`strings.Split` and `strings.Join`), and of the type registry tables of the same file,
followed by theorems about them.

Conventions of the embedding:

* Go strings are Lean `String`s.  The only separator the code ever splits on is `"."`,
  a single character, so `strings.Split` takes the separator as a `Char`.
* A Go index expression `xs[i]` or slice expression `xs[i:]` panics when it is out of
  range.  The embedding makes this explicit: the functions return `Option Host`, where
  `none` stands for such a panic.
* `config.Get().ExternalServices.Istio.IstioIdentityDomain` lives in a package that is
  outside this file; it is threaded through as the parameter `IstioIdentityDomain`.
-/

namespace kubernetes

/-! ## Go library functions -/

namespace strings

/-- Cut a character list at every occurrence of `sep`: the result is the first piece
paired with the list of the remaining pieces.  There is always a first piece. -/
def splitChars (sep : Char) : List Char → List Char × List (List Char)
  | [] => ([], [])
  | c :: cs =>
    if c = sep then ([], (splitChars sep cs).1 :: (splitChars sep cs).2)
    else (c :: (splitChars sep cs).1, (splitChars sep cs).2)

/-- Go `strings.Split(s, sep)` for a one-character separator: the substrings of `s`
between the occurrences of `sep`, empty substrings included. -/
def Split (s : String) (sep : Char) : List String :=
  String.mk (splitChars sep s.data).1 :: (splitChars sep s.data).2.map String.mk

/-- Go `strings.Join(elems, sep)`. -/
def Join : List String → String → String
  | [], _ => ""
  | [p], _ => p
  | p :: q :: rest, sep => p ++ sep ++ Join (q :: rest) sep

end strings

/-- Go slice expression `xs[n:]`, which panics when `n > len(xs)`. -/
def sliceFrom {α : Type} (xs : List α) (n : Nat) : Option (List α) :=
  if n ≤ xs.length then some (xs.drop n) else none

/-! ## The code under verification -/

/-- Host represents the FQDN format for Istio hostnames. -/
structure Host where
  Service : String
  Namespace : String
  Cluster : String
  CompleteInput : Bool
  deriving DecidableEq, Repr

/-- The cluster name `ParseHost` works with: its `cluster` argument, or the configured
identity domain when the argument is empty (the first statement of `ParseHost`). -/
def resolve (IstioIdentityDomain cluster : String) : String :=
  if cluster = "" then IstioIdentityDomain else cluster

/-- The state of `host` in `ParseHost` after the inner `if len(domainParts) > 2` block. -/
def fqdnCheck (domainParts : List String) (cluster : String) (host : Host) : Option Host :=
  if domainParts.length > 2 then
    match sliceFrom domainParts 2 with
    | none => none
    | some tl =>
      let parsedClusterName := strings.Join tl "."
      if parsedClusterName = cluster then
        -- FQDN input
        some { host with Cluster := cluster, CompleteInput := true }
      else some host
  else some host

/-- ParseHost takes as an input a hostname (simple or full FQDN), namespace and
clusterName and returns a parsed Host struct. -/
def ParseHost (IstioIdentityDomain hostName nspace cluster : String) : Option Host :=
  let cluster := resolve IstioIdentityDomain cluster
  let domainParts := strings.Split hostName '.'
  match domainParts[0]? with
  | none => none
  | some p0 =>
    let host : Host := { Service := p0, Namespace := "", Cluster := "", CompleteInput := false }
    if domainParts.length > 1 then
      match fqdnCheck domainParts cluster host with
      | none => none
      | some host =>
        if host.CompleteInput then
          match domainParts[1]? with
          | none => none
          | some p1 => some { host with Namespace := p1 }
        else
          -- ServiceEntry or broken hostname
          some { host with Service := hostName }
    else
      -- Simple format
      some { host with Namespace := nspace, Cluster := cluster, CompleteInput := true }

/-- Linear search of `namespace` in `nss`. -/
def includes : List String → String → Bool
  | [], _ => false
  | ns :: nss, nspace => if ns = nspace then true else includes nss nspace

/-- GetHost parses hostName and returns a Host struct. It considers Namespaces in the
cluster to be more accurate when deciding if the hostName is a ServiceEntry or a
service.namespace host definition. -/
def GetHost (IstioIdentityDomain hostName nspace cluster : String)
    (clusterNamespaces : List String) : Option Host :=
  let hParts := strings.Split hostName '.'
  -- It might be a service entry or a 2-format host specification
  if hParts.length = 2 then
    -- It is subject of validation when object is within the namespace
    -- Otherwise is considered as a service entry
    match hParts[1]? with
    | none => none
    | some p1 =>
      if p1 = nspace || includes clusterNamespaces p1 then
        match hParts[0]? with
        | none => none
        | some p0 =>
          some { Service := p0, Namespace := p1, Cluster := cluster, CompleteInput := true }
      else ParseHost IstioIdentityDomain hostName nspace cluster
  else ParseHost IstioIdentityDomain hostName nspace cluster

/-- String outputs a full FQDN version of the Host:
`fmt.Sprintf("%s.%s.%s", h.Service, h.Namespace, h.Cluster)`. -/
def Host.String (h : Host) : String :=
  h.Service ++ "." ++ h.Namespace ++ "." ++ h.Cluster

/-! ## The type registry

The string constants, the per-group type tables and the plural maps of
`src/kubernetes/types.go`.  A Go map literal is the list of its key/value pairs in source
order, and reading `m[k]` together with its presence flag is `List.lookup k m`. -/

def DestinationRules : String := "destinationrules"
def DestinationRuleType : String := "DestinationRule"
def DestinationRuleTypeList : String := "DestinationRuleList"
def Gateways : String := "gateways"
def GatewayType : String := "Gateway"
def GatewayTypeList : String := "GatewayList"
def Sidecars : String := "sidecars"
def SidecarType : String := "Sidecar"
def SidecarTypeList : String := "SidecarList"
def Serviceentries : String := "serviceentries"
def ServiceentryType : String := "ServiceEntry"
def ServiceentryTypeList : String := "ServiceEntryList"
def VirtualServices : String := "virtualservices"
def VirtualServiceType : String := "VirtualService"
def VirtualServiceTypeList : String := "VirtualServiceList"
def quotaspecs : String := "quotaspecs"
def quotaspecType : String := "QuotaSpec"
def quotaspecTypeList : String := "QuotaSpecList"
def quotaspecbindings : String := "quotaspecbindings"
def quotaspecbindingType : String := "QuotaSpecBinding"
def quotaspecbindingTypeList : String := "QuotaSpecBindingList"
def policies : String := "policies"
def policyType : String := "Policy"
def policyTypeList : String := "PolicyList"
def meshPolicies : String := "meshpolicies"
def meshPolicyType : String := "MeshPolicy"
def meshPolicyTypeList : String := "MeshPolicyList"
def serviceMeshPolicies : String := "servicemeshpolicies"
def serviceMeshPolicyType : String := "ServiceMeshPolicy"
def serviceMeshPolicyTypeList : String := "ServiceMeshPolicyList"
def clusterrbacconfigs : String := "clusterrbacconfigs"
def clusterrbacconfigType : String := "ClusterRbacConfig"
def clusterrbacconfigTypeList : String := "ClusterRbacConfigList"
def rbacconfigs : String := "rbacconfigs"
def rbacconfigType : String := "RbacConfig"
def rbacconfigTypeList : String := "RbacConfigList"
def serviceroles : String := "serviceroles"
def serviceroleType : String := "ServiceRole"
def serviceroleTypeList : String := "ServiceRoleList"
def servicerolebindings : String := "servicerolebindings"
def servicerolebindingType : String := "ServiceRoleBinding"
def servicerolebindingTypeList : String := "ServiceRoleBindingList"
def serviceMeshRbacConfigs : String := "servicemeshrbacconfigs"
def serviceMeshRbacConfigType : String := "ServiceMeshRbacConfig"
def serviceMeshRbacConfigTypeList : String := "ServiceMeshRbacConfigList"
def authorizationpolicies : String := "authorizationpolicies"
def authorizationpoliciesType : String := "AuthorizationPolicy"
def authorizationpoliciesTypeList : String := "AuthorizationPolicyList"
def rules : String := "rules"
def ruleType : String := "rule"
def ruleTypeList : String := "ruleList"
def adapters : String := "adapters"
def adapterType : String := "adapter"
def adapterTypeList : String := "adapterList"
def handlers : String := "handlers"
def handlerType : String := "handler"
def handlerTypeList : String := "handlerList"
def instances : String := "instances"
def instanceType : String := "instance"
def instanceTypeList : String := "instanceList"
def templates : String := "templates"
def templateType : String := "template"
def templateTypeList : String := "templateList"

/-- The anonymous struct of the per-group type tables. -/
structure TypeEntry where
  objectKind : String
  collectionKind : String
  deriving DecidableEq, Repr

/-- Kinds of the networking group. -/
def networkingTypes : List TypeEntry :=
  [ { objectKind := GatewayType, collectionKind := GatewayTypeList },
    { objectKind := VirtualServiceType, collectionKind := VirtualServiceTypeList },
    { objectKind := DestinationRuleType, collectionKind := DestinationRuleTypeList },
    { objectKind := ServiceentryType, collectionKind := ServiceentryTypeList },
    { objectKind := SidecarType, collectionKind := SidecarTypeList } ]

/-- Kinds of the config group. -/
def configTypes : List TypeEntry :=
  [ { objectKind := ruleType, collectionKind := ruleTypeList },
    { objectKind := quotaspecType, collectionKind := quotaspecTypeList },
    { objectKind := quotaspecbindingType, collectionKind := quotaspecbindingTypeList } ]

/-- Kinds of the authentication group. -/
def authenticationTypes : List TypeEntry :=
  [ { objectKind := policyType, collectionKind := policyTypeList },
    { objectKind := meshPolicyType, collectionKind := meshPolicyTypeList } ]

/-- Kinds of the Maistra authentication group. -/
def maistraAuthenticationTypes : List TypeEntry :=
  [ { objectKind := serviceMeshPolicyType, collectionKind := serviceMeshPolicyTypeList } ]

/-- Kinds of the security group. -/
def securityTypes : List TypeEntry :=
  [ { objectKind := authorizationpoliciesType, collectionKind := authorizationpoliciesTypeList } ]

/-- Adapter kinds. -/
def adapterTypes : List TypeEntry :=
  [ { objectKind := adapterType, collectionKind := adapterTypeList },
    { objectKind := handlerType, collectionKind := handlerTypeList } ]

/-- Template kinds. -/
def templateTypes : List TypeEntry :=
  [ { objectKind := instanceType, collectionKind := instanceTypeList },
    { objectKind := templateType, collectionKind := templateTypeList } ]

/-- Kinds of the rbac group. -/
def rbacTypes : List TypeEntry :=
  [ { objectKind := clusterrbacconfigType, collectionKind := clusterrbacconfigTypeList },
    { objectKind := rbacconfigType, collectionKind := rbacconfigTypeList },
    { objectKind := serviceroleType, collectionKind := serviceroleTypeList },
    { objectKind := servicerolebindingType, collectionKind := servicerolebindingTypeList } ]

/-- Kinds of the Maistra rbac group. -/
def maistraRbacTypes : List TypeEntry :=
  [ { objectKind := serviceMeshRbacConfigType, collectionKind := serviceMeshRbacConfigTypeList } ]

/-- A map to get the plural for a Istio type using the singlar type; one entry per
adapter. -/
def adapterPlurals : List (String × String) :=
  [ (adapterType, adapters),
    (handlerType, handlers) ]

/-- The same map for templates; one entry per template. -/
def templatePlurals : List (String × String) :=
  [ (instanceType, instances),
    (templateType, templates) ]

/-- The map from a plural (REST resource) name to its kind. -/
def PluralType : List (String × String) :=
  [ (Gateways, GatewayType),
    (VirtualServices, VirtualServiceType),
    (DestinationRules, DestinationRuleType),
    (Serviceentries, ServiceentryType),
    (Sidecars, SidecarType),
    (rules, ruleType),
    (quotaspecs, quotaspecType),
    (quotaspecbindings, quotaspecbindingType),
    (adapters, adapterType),
    (handlers, handlerType),
    (instances, instanceType),
    (templates, templateType),
    (policies, policyType),
    (meshPolicies, meshPolicyType),
    (serviceMeshPolicies, serviceMeshPolicyType),
    (clusterrbacconfigs, clusterrbacconfigType),
    (rbacconfigs, rbacconfigType),
    (serviceroles, serviceroleType),
    (servicerolebindings, servicerolebindingType),
    (serviceMeshRbacConfigs, serviceMeshRbacConfigType),
    (authorizationpolicies, authorizationpoliciesType) ]

/-- All entries of the nine per-group type tables, in source order. -/
def registeredTypes : List TypeEntry :=
  networkingTypes ++ configTypes ++ authenticationTypes ++ maistraAuthenticationTypes
    ++ securityTypes ++ adapterTypes ++ templateTypes ++ rbacTypes ++ maistraRbacTypes


/-! ## Facts about `strings.Split` and `strings.Join` -/

namespace strings

theorem splitChars_of_not_mem (sep : Char) (cs : List Char) (h : sep ∉ cs) :
    splitChars sep cs = (cs, []) := by
  induction cs with
  | nil => rfl
  | cons c cs ih =>
    have hc : c ≠ sep := fun e => h (by simp [e])
    have hcs : sep ∉ cs := fun e => h (by simp [e])
    simp [splitChars, hc, ih hcs]

theorem splitChars_append (sep : Char) (a b : List Char) (h : sep ∉ a) :
    splitChars sep (a ++ sep :: b) = (a, (splitChars sep b).1 :: (splitChars sep b).2) := by
  induction a with
  | nil => simp [splitChars]
  | cons c cs ih =>
    have hc : c ≠ sep := fun e => h (by simp [e])
    have hcs : sep ∉ cs := fun e => h (by simp [e])
    simp [splitChars, hc, ih hcs]

theorem splitChars_fst_not_mem (sep : Char) (cs : List Char) :
    sep ∉ (splitChars sep cs).1 := by
  induction cs with
  | nil => simp [splitChars]
  | cons c cs ih =>
    by_cases hc : c = sep
    · simp [splitChars, hc]
    · simp [splitChars, hc, ih, Ne.symm hc]

theorem splitChars_snd_not_mem (sep : Char) (cs : List Char) :
    ∀ p ∈ (splitChars sep cs).2, sep ∉ p := by
  induction cs with
  | nil => simp [splitChars]
  | cons c cs ih =>
    by_cases hc : c = sep
    · intro p hp
      simp only [splitChars, hc, if_true, List.mem_cons] at hp
      rcases hp with rfl | hp
      · exact splitChars_fst_not_mem sep cs
      · exact ih p hp
    · simpa [splitChars, hc] using ih

theorem splitChars_fst_eq_nil (sep : Char) (cs : List Char) :
    (splitChars sep cs).1 = [] ↔ cs = [] ∨ cs.head? = some sep := by
  cases cs with
  | nil => simp [splitChars]
  | cons c cs =>
    by_cases hc : c = sep
    · simp [splitChars, hc]
    · simp [splitChars, hc]

theorem Split_ne_nil (s : String) (sep : Char) : Split s sep ≠ [] := by
  simp [Split]

theorem Split_exists_cons (s : String) (sep : Char) :
    ∃ p0 tl, Split s sep = p0 :: tl := ⟨_, _, rfl⟩

theorem Split_of_not_mem (s : String) (sep : Char) (h : sep ∉ s.data) :
    Split s sep = [s] := by
  simp [Split, splitChars_of_not_mem sep s.data h]

theorem Split_append (a b : String) (sep : Char) (h : sep ∉ a.data) :
    Split (a ++ String.singleton sep ++ b) sep = a :: Split b sep := by
  have hd : (a ++ String.singleton sep ++ b).data = a.data ++ sep :: b.data := by
    simp [String.data_append, String.singleton]
  simp [Split, hd, splitChars_append sep a.data b.data h]

theorem Split_not_mem (s : String) (sep : Char) : ∀ p ∈ Split s sep, sep ∉ p.data := by
  intro p hp
  simp only [Split, List.mem_cons, List.mem_map] at hp
  rcases hp with rfl | ⟨q, hq, rfl⟩
  · exact splitChars_fst_not_mem sep s.data
  · exact splitChars_snd_not_mem sep s.data q hq

theorem Join_cons_char (c : Char) (a : List Char) (tl : List String) (sep : String) :
    (Join (String.mk (c :: a) :: tl) sep).data = c :: (Join (String.mk a :: tl) sep).data := by
  cases tl with
  | nil => simp [Join]
  | cons q rest => simp [Join, String.data_append]

theorem Join_splitChars (sep : Char) (cs : List Char) :
    (Join (String.mk (splitChars sep cs).1 :: (splitChars sep cs).2.map String.mk)
      (String.singleton sep)).data = cs := by
  induction cs with
  | nil => simp [splitChars, Join]
  | cons c cs ih =>
    by_cases hc : c = sep
    · simp only [splitChars, hc, if_true, List.map_cons, Join, String.data_append, ih]
      simp [String.singleton]
    · simp only [splitChars, hc, if_false, Join_cons_char, ih]

/-- Joining the pieces of a split with the separator gives the string back. -/
theorem Join_Split (s : String) (sep : Char) :
    Join (Split s sep) (String.singleton sep) = s :=
  String.ext (Join_splitChars sep s.data)

theorem Join_Split_dot (s : String) : Join (Split s '.') "." = s :=
  Join_Split s '.'

theorem Split_append_dot (a b : String) (h : '.' ∉ a.data) :
    Split (a ++ "." ++ b) '.' = a :: Split b '.' :=
  Split_append a b '.' h

end strings

/-! ## `ParseHost` and `GetHost` by the shape of the split -/

theorem includes_eq_true_iff (nss : List String) (x : String) :
    includes nss x = true ↔ x ∈ nss := by
  induction nss with
  | nil => simp [includes]
  | cons n nss ih =>
    by_cases h : n = x
    · simp [includes, h]
    · simp [includes, h, ih, Ne.symm h]

theorem ParseHost_one (d hostName nspace cluster p0 : String)
    (h : strings.Split hostName '.' = [p0]) :
    ParseHost d hostName nspace cluster = some ⟨p0, nspace, resolve d cluster, true⟩ := by
  simp [ParseHost, h]

theorem ParseHost_two (d hostName nspace cluster p0 p1 : String)
    (h : strings.Split hostName '.' = [p0, p1]) :
    ParseHost d hostName nspace cluster = some ⟨hostName, "", "", false⟩ := by
  simp [ParseHost, fqdnCheck, h]

theorem ParseHost_many_match (d hostName nspace cluster p0 p1 p2 : String) (tl : List String)
    (h : strings.Split hostName '.' = p0 :: p1 :: p2 :: tl)
    (hj : strings.Join (p2 :: tl) "." = resolve d cluster) :
    ParseHost d hostName nspace cluster = some ⟨p0, p1, resolve d cluster, true⟩ := by
  simp [ParseHost, fqdnCheck, sliceFrom, h, hj]

theorem ParseHost_many_other (d hostName nspace cluster p0 p1 p2 : String) (tl : List String)
    (h : strings.Split hostName '.' = p0 :: p1 :: p2 :: tl)
    (hj : strings.Join (p2 :: tl) "." ≠ resolve d cluster) :
    ParseHost d hostName nspace cluster = some ⟨hostName, "", "", false⟩ := by
  simp [ParseHost, fqdnCheck, sliceFrom, h, hj]

theorem GetHost_of_length_ne_two (d hostName nspace cluster : String) (known : List String)
    (h : (strings.Split hostName '.').length ≠ 2) :
    GetHost d hostName nspace cluster known = ParseHost d hostName nspace cluster := by
  simp [GetHost, h]

theorem GetHost_two_hit (d hostName nspace cluster p0 p1 : String) (known : List String)
    (h : strings.Split hostName '.' = [p0, p1]) (hk : p1 = nspace ∨ p1 ∈ known) :
    GetHost d hostName nspace cluster known = some ⟨p0, p1, cluster, true⟩ := by
  have hk2 : (p1 = nspace ∨ includes known p1 = true) := by
    rcases hk with hk | hk
    · exact Or.inl hk
    · exact Or.inr ((includes_eq_true_iff known p1).2 hk)
  simp [GetHost, h, hk2]

theorem GetHost_two_miss (d hostName nspace cluster p0 p1 : String) (known : List String)
    (h : strings.Split hostName '.' = [p0, p1]) (hn : p1 ≠ nspace) (hk : p1 ∉ known) :
    GetHost d hostName nspace cluster known = ParseHost d hostName nspace cluster := by
  have hk2 : ¬ (includes known p1 = true) := fun e => hk ((includes_eq_true_iff known p1).1 e)
  simp [GetHost, h, hn, hk2]

/-- Every run of `ParseHost` ends in one of three ways, told apart by the split. -/
theorem ParseHost_cases (d hostName nspace cluster : String) :
    (∃ p0, strings.Split hostName '.' = [p0]
        ∧ ParseHost d hostName nspace cluster = some ⟨p0, nspace, resolve d cluster, true⟩)
      ∨ (∃ p0 p1 p2 tl, strings.Split hostName '.' = p0 :: p1 :: p2 :: tl
        ∧ strings.Join (p2 :: tl) "." = resolve d cluster
        ∧ ParseHost d hostName nspace cluster = some ⟨p0, p1, resolve d cluster, true⟩)
      ∨ (2 ≤ (strings.Split hostName '.').length
        ∧ ParseHost d hostName nspace cluster = some ⟨hostName, "", "", false⟩) := by
  obtain ⟨p0, tl, hsp⟩ := strings.Split_exists_cons hostName '.'
  match tl, hsp with
  | [], hsp => exact Or.inl ⟨p0, hsp, ParseHost_one d hostName nspace cluster p0 hsp⟩
  | [p1], hsp =>
    exact Or.inr (Or.inr ⟨by simp [hsp], ParseHost_two d hostName nspace cluster p0 p1 hsp⟩)
  | p1 :: p2 :: tl, hsp =>
    by_cases hj : strings.Join (p2 :: tl) "." = resolve d cluster
    · exact Or.inr (Or.inl ⟨p0, p1, p2, tl, hsp, hj,
        ParseHost_many_match d hostName nspace cluster p0 p1 p2 tl hsp hj⟩)
    · exact Or.inr (Or.inr ⟨by simp [hsp],
        ParseHost_many_other d hostName nspace cluster p0 p1 p2 tl hsp hj⟩)

/-- Every run of `GetHost` either takes the two-label shortcut or is a run of `ParseHost`. -/
theorem GetHost_cases (d hostName nspace cluster : String) (known : List String) :
    (∃ p0 p1, strings.Split hostName '.' = [p0, p1] ∧ (p1 = nspace ∨ p1 ∈ known)
        ∧ GetHost d hostName nspace cluster known = some ⟨p0, p1, cluster, true⟩)
      ∨ GetHost d hostName nspace cluster known = ParseHost d hostName nspace cluster := by
  by_cases h2 : (strings.Split hostName '.').length = 2
  · obtain ⟨p0, tl, hsp⟩ := strings.Split_exists_cons hostName '.'
    rw [hsp] at h2
    match tl, hsp, h2 with
    | [p1], hsp, _ =>
      by_cases hk : p1 = nspace ∨ p1 ∈ known
      · exact Or.inl ⟨p0, p1, hsp, hk, GetHost_two_hit d hostName nspace cluster p0 p1 known hsp hk⟩
      · exact Or.inr (GetHost_two_miss d hostName nspace cluster p0 p1 known hsp
          (fun e => hk (Or.inl e)) (fun e => hk (Or.inr e)))
  · exact Or.inr (GetHost_of_length_ne_two d hostName nspace cluster known h2)

theorem String_assoc_dot (a b c : String) :
    Host.String ⟨a, b, c, true⟩ = a ++ "." ++ (b ++ "." ++ c) := by
  simp [Host.String, String.append_assoc]

/-- Re-reading the dotted form of a host whose service and namespace are single labels
and whose cluster is the resolved cluster gives the same host. -/
theorem GetHost_String_complete (d a b nspace cluster : String) (known : List String)
    (ha : '.' ∉ a.data) (hb : '.' ∉ b.data) :
    GetHost d (Host.String ⟨a, b, resolve d cluster, true⟩) nspace cluster known
      = some ⟨a, b, resolve d cluster, true⟩ := by
  obtain ⟨p2, tl, hc⟩ := strings.Split_exists_cons (resolve d cluster) '.'
  have hsp : strings.Split (Host.String ⟨a, b, resolve d cluster, true⟩) '.'
      = a :: b :: p2 :: tl := by
    rw [String_assoc_dot, strings.Split_append_dot _ _ ha, strings.Split_append_dot _ _ hb, hc]
  have hj : strings.Join (p2 :: tl) "." = resolve d cluster := by
    rw [← hc]; exact strings.Join_Split_dot _
  rw [GetHost_of_length_ne_two _ _ _ _ _ (by simp [hsp])]
  exact ParseHost_many_match d _ nspace cluster a b p2 tl hsp hj

theorem Split_head_ne_empty (s p0 : String) (tl : List String) (sep : Char)
    (hs : s ≠ "") (hd : s.data.head? ≠ some sep) (hsp : strings.Split s sep = p0 :: tl) :
    p0 ≠ "" := by
  intro he
  have h1 : String.mk (strings.splitChars sep s.data).1 = p0 := by
    simpa [strings.Split] using congrArg List.head? hsp
  have h2 : (strings.splitChars sep s.data).1 = [] := by
    have := congrArg String.data h1
    simpa [he] using this
  rcases (strings.splitChars_fst_eq_nil sep s.data).1 h2 with h | h
  · exact hs (String.ext h)
  · exact hd h

/-! ## The two-label shortcut of `GetHost` and an empty cluster argument -/

/-- C1 (evaluation at the failing input): with the identity domain configured as
`svc.cluster.local`, the two-label hostname `reviews.bookinfo`, whose second label is in the
namespace list, and an empty cluster argument, `GetHost` returns a complete Host whose
Cluster is the empty string, although the empty argument resolves to `svc.cluster.local`;
`ParseHost`, on the single label `reviews` with the same empty argument, does put the
resolved domain in the Cluster field. -/
theorem GetHost_shortcut_empty_cluster :
    GetHost "svc.cluster.local" "reviews.bookinfo" "default" "" ["bookinfo", "default"]
        = some ⟨"reviews", "bookinfo", "", true⟩
      ∧ resolve "svc.cluster.local" "" = "svc.cluster.local"
      ∧ GetHost "svc.cluster.local" "reviews.bookinfo" "default" "" ["bookinfo", "default"]
        ≠ some ⟨"reviews", "bookinfo", resolve "svc.cluster.local" "", true⟩
      ∧ ParseHost "svc.cluster.local" "reviews" "bookinfo" ""
        = some ⟨"reviews", "bookinfo", "svc.cluster.local", true⟩ := by
  decide

/-! ## `ParseHost` by label count -/

/-- C2: when the hostname splits on "." into labels `a, b, rest...` with `rest` non-empty
(three or more labels) and `rest` joined with "." equals the resolved cluster, then for
every context namespace `ParseHost` returns
`Host{Service: a, Namespace: b, Cluster: resolve(cl), CompleteInput: true}`; the result
does not depend on the context namespace. -/
theorem ParseHost_fqdn (d hostName cluster a b : String) (rest : List String)
    (hsplit : strings.Split hostName '.' = a :: b :: rest) (hrest : rest ≠ [])
    (hjoin : strings.Join rest "." = resolve d cluster) :
    ∀ nspace : String,
      ParseHost d hostName nspace cluster = some ⟨a, b, resolve d cluster, true⟩ := by
  intro nspace
  cases rest with
  | nil => exact absurd rfl hrest
  | cons p2 tl => exact ParseHost_many_match d hostName nspace cluster a b p2 tl hsplit hjoin

theorem ParseHost_fqdn_witness :
    strings.Split "reviews.bookinfo.svc.cluster.local" '.'
        = ["reviews", "bookinfo", "svc", "cluster", "local"]
      ∧ strings.Join ["svc", "cluster", "local"] "." = resolve "cluster.local" "svc.cluster.local"
      ∧ ∀ nspace : String,
          ParseHost "cluster.local" "reviews.bookinfo.svc.cluster.local" nspace "svc.cluster.local"
            = some ⟨"reviews", "bookinfo", "svc.cluster.local", true⟩ :=
  ⟨by decide, by decide,
    ParseHost_fqdn "cluster.local" "reviews.bookinfo.svc.cluster.local" "svc.cluster.local"
      "reviews" "bookinfo" ["svc", "cluster", "local"] (by decide) (by decide) (by decide)⟩

/-- C3: for every hostname `s` that contains no "." and every context namespace and
cluster, `ParseHost` returns
`Host{Service: s, Namespace: ns, Cluster: resolve(cl), CompleteInput: true}`. -/
theorem ParseHost_single_label (d s nspace cluster : String) (hs : '.' ∉ s.data) :
    ParseHost d s nspace cluster = some ⟨s, nspace, resolve d cluster, true⟩ :=
  ParseHost_one d s nspace cluster s (strings.Split_of_not_mem s '.' hs)

theorem ParseHost_single_label_witness :
    '.' ∉ "reviews".data
      ∧ ParseHost "svc.cluster.local" "reviews" "bookinfo" ""
          = some ⟨"reviews", "bookinfo", resolve "svc.cluster.local" "", true⟩ :=
  ⟨by decide, ParseHost_single_label "svc.cluster.local" "reviews" "bookinfo" "" (by decide)⟩

/-- C4: for every hostname that splits on "." into exactly two labels, and every context
namespace and cluster, `ParseHost` returns
`Host{Service: hostname, Namespace: "", Cluster: "", CompleteInput: false}`. -/
theorem ParseHost_two_labels (d hostName nspace cluster : String)
    (h2 : (strings.Split hostName '.').length = 2) :
    ParseHost d hostName nspace cluster = some ⟨hostName, "", "", false⟩ := by
  obtain ⟨p0, tl, hsp⟩ := strings.Split_exists_cons hostName '.'
  rw [hsp] at h2
  match tl, hsp, h2 with
  | [p1], hsp, _ => exact ParseHost_two d hostName nspace cluster p0 p1 hsp

theorem ParseHost_two_labels_witness :
    (strings.Split "reviews.bookinfo" '.').length = 2
      ∧ ParseHost "svc.cluster.local" "reviews.bookinfo" "bookinfo" "svc.cluster.local"
          = some ⟨"reviews.bookinfo", "", "", false⟩ :=
  ⟨by decide,
    ParseHost_two_labels "svc.cluster.local" "reviews.bookinfo" "bookinfo" "svc.cluster.local"
      (by decide)⟩

/-- C5: when the hostname splits on "." into labels `a, b, rest...` with `rest` non-empty
(three or more labels) and `rest` joined with "." differs from the resolved cluster,
`ParseHost` returns
`Host{Service: hostname, Namespace: "", Cluster: "", CompleteInput: false}`. -/
theorem ParseHost_foreign_suffix (d hostName nspace cluster a b : String) (rest : List String)
    (hsplit : strings.Split hostName '.' = a :: b :: rest) (hrest : rest ≠ [])
    (hjoin : strings.Join rest "." ≠ resolve d cluster) :
    ParseHost d hostName nspace cluster = some ⟨hostName, "", "", false⟩ := by
  cases rest with
  | nil => exact absurd rfl hrest
  | cons p2 tl => exact ParseHost_many_other d hostName nspace cluster a b p2 tl hsplit hjoin

theorem ParseHost_foreign_suffix_witness :
    strings.Split "www.external-api.com" '.' = ["www", "external-api", "com"]
      ∧ strings.Join ["com"] "." ≠ resolve "svc.cluster.local" "svc.cluster.local"
      ∧ ParseHost "svc.cluster.local" "www.external-api.com" "bookinfo" "svc.cluster.local"
          = some ⟨"www.external-api.com", "", "", false⟩ :=
  ⟨by decide, by decide,
    ParseHost_foreign_suffix "svc.cluster.local" "www.external-api.com" "bookinfo"
      "svc.cluster.local" "www" "external-api" ["com"] (by decide) (by decide) (by decide)⟩

/-! ## `GetHost` against `ParseHost` -/

/-- C6: if the hostname does not split into exactly two labels, or it splits into two
labels `p0, p1` with `p1` neither equal to the context namespace nor an element of the
namespace list, then `GetHost` returns exactly what `ParseHost` returns. -/
theorem GetHost_eq_ParseHost (d hostName nspace cluster : String) (known : List String)
    (h : (strings.Split hostName '.').length ≠ 2
      ∨ ∃ p0 p1, strings.Split hostName '.' = [p0, p1] ∧ p1 ≠ nspace ∧ p1 ∉ known) :
    GetHost d hostName nspace cluster known = ParseHost d hostName nspace cluster := by
  rcases h with h | ⟨p0, p1, hsp, hn, hk⟩
  · exact GetHost_of_length_ne_two d hostName nspace cluster known h
  · exact GetHost_two_miss d hostName nspace cluster p0 p1 known hsp hn hk

theorem GetHost_eq_ParseHost_witness :
    ((strings.Split "reviews.example" '.').length ≠ 2
        ∨ ∃ p0 p1, strings.Split "reviews.example" '.' = [p0, p1] ∧ p1 ≠ "default"
            ∧ p1 ∉ ["bookinfo", "default"])
      ∧ GetHost "svc.cluster.local" "reviews.example" "default" "" ["bookinfo", "default"]
          = ParseHost "svc.cluster.local" "reviews.example" "default" "" :=
  ⟨Or.inr ⟨"reviews", "example", by decide, by decide, by decide⟩,
    GetHost_eq_ParseHost "svc.cluster.local" "reviews.example" "default" ""
      ["bookinfo", "default"]
      (Or.inr ⟨"reviews", "example", by decide, by decide, by decide⟩)⟩

/-! ## Round trip through `Host.String` -/

/-- C7 (counterexample): the round trip fails on two inputs.  First, the single-label
hostname `reviews` in the context namespace `team.a` gives a complete Host whose dotted
form `reviews.team.a.svc.cluster.local` is read back as an incomplete Host.  Second, the
two-label hostname `reviews.bookinfo` with an empty cluster argument gives, through the
shortcut of `GetHost`, a complete Host with an empty Cluster, whose dotted form
`reviews.bookinfo.` is read back as an incomplete Host.  In both the namespace list of
the second call contains the Host's namespace. -/
theorem GetHost_roundtrip_fails :
    (GetHost "svc.cluster.local" "reviews" "team.a" "svc.cluster.local" []
          = some ⟨"reviews", "team.a", "svc.cluster.local", true⟩
        ∧ "team.a" ∈ ["team.a"]
        ∧ GetHost "svc.cluster.local"
            (Host.String ⟨"reviews", "team.a", "svc.cluster.local", true⟩)
            "team.a" "svc.cluster.local" ["team.a"]
          = some ⟨"reviews.team.a.svc.cluster.local", "", "", false⟩)
      ∧ (GetHost "svc.cluster.local" "reviews.bookinfo" "default" "" ["bookinfo"]
          = some ⟨"reviews", "bookinfo", "", true⟩
        ∧ "bookinfo" ∈ ["bookinfo"]
        ∧ GetHost "svc.cluster.local" (Host.String ⟨"reviews", "bookinfo", "", true⟩)
            "default" "" ["bookinfo"]
          = some ⟨"reviews.bookinfo.", "", "", false⟩) := by
  decide

/-- C7 (amended): when the context namespace contains no ".", and
`h = GetHost(hostname, ns, cl, known)` has `CompleteInput == true` and its Cluster is the
resolved cluster, then `GetHost(h.String(), ns, cl, known')` returns `h` again, for every
namespace list `known'`. -/
theorem GetHost_roundtrip (d hostName nspace cluster : String) (known known' : List String)
    (h : Host) (hns : '.' ∉ nspace.data)
    (hget : GetHost d hostName nspace cluster known = some h)
    (hc : h.CompleteInput = true) (hcl : h.Cluster = resolve d cluster) :
    GetHost d h.String nspace cluster known' = some h := by
  have key : ∃ a b, '.' ∉ a.data ∧ '.' ∉ b.data ∧ h = ⟨a, b, resolve d cluster, true⟩ := by
    rcases GetHost_cases d hostName nspace cluster known with ⟨p0, p1, hsp, _, hg⟩ | hg
    · rw [hg] at hget
      have hh : h = ⟨p0, p1, cluster, true⟩ := (Option.some.inj hget).symm
      subst hh
      refine ⟨p0, p1, ?_, ?_, ?_⟩
      · exact strings.Split_not_mem hostName '.' p0 (by simp [hsp])
      · exact strings.Split_not_mem hostName '.' p1 (by simp [hsp])
      · simp only [Host.mk.injEq, true_and, and_true]
        exact hcl
    · rw [hg] at hget
      rcases ParseHost_cases d hostName nspace cluster with
        ⟨p0, hsp, hp⟩ | ⟨p0, p1, p2, tl, hsp, _, hp⟩ | ⟨_, hp⟩
      · rw [hp] at hget
        exact ⟨p0, nspace, strings.Split_not_mem hostName '.' p0 (by simp [hsp]), hns,
          (Option.some.inj hget).symm⟩
      · rw [hp] at hget
        exact ⟨p0, p1, strings.Split_not_mem hostName '.' p0 (by simp [hsp]),
          strings.Split_not_mem hostName '.' p1 (by simp [hsp]), (Option.some.inj hget).symm⟩
      · rw [hp] at hget
        have hh : h = ⟨hostName, "", "", false⟩ := (Option.some.inj hget).symm
        rw [hh] at hc
        exact absurd hc (by simp)
  obtain ⟨a, b, ha, hb, rfl⟩ := key
  exact GetHost_String_complete d a b nspace cluster known' ha hb

theorem GetHost_roundtrip_witness :
    '.' ∉ "default".data
      ∧ GetHost "svc.cluster.local" "reviews.bookinfo" "default" "svc.cluster.local" ["bookinfo"]
          = some ⟨"reviews", "bookinfo", "svc.cluster.local", true⟩
      ∧ GetHost "svc.cluster.local"
            (Host.String ⟨"reviews", "bookinfo", "svc.cluster.local", true⟩)
            "default" "svc.cluster.local" []
          = some ⟨"reviews", "bookinfo", "svc.cluster.local", true⟩ :=
  ⟨by decide, by decide,
    GetHost_roundtrip "svc.cluster.local" "reviews.bookinfo" "default" "svc.cluster.local"
      ["bookinfo"] [] ⟨"reviews", "bookinfo", "svc.cluster.local", true⟩
      (by decide) (by decide) rfl (by decide)⟩

/-! ## Invariants of the returned `Host` -/

/-- C8 (counterexample): a complete Host can have an empty Namespace or an empty Cluster.
`ParseHost` copies an empty context namespace into the Host of a single-label hostname;
it takes the empty second label of `reviews..svc.cluster.local` as the Namespace; with an
empty configured identity domain and an empty cluster argument the Cluster is empty; and
the two-label shortcut of `GetHost` copies an empty cluster argument into the Host. -/
theorem complete_with_empty_fields :
    ParseHost "svc.cluster.local" "reviews" "" "svc.cluster.local"
        = some ⟨"reviews", "", "svc.cluster.local", true⟩
      ∧ ParseHost "svc.cluster.local" "reviews..svc.cluster.local" "bookinfo" "svc.cluster.local"
        = some ⟨"reviews", "", "svc.cluster.local", true⟩
      ∧ ParseHost "" "reviews" "bookinfo" "" = some ⟨"reviews", "bookinfo", "", true⟩
      ∧ GetHost "svc.cluster.local" "reviews.bookinfo" "bookinfo" "" []
        = some ⟨"reviews", "bookinfo", "", true⟩ := by
  decide

/-- C8 (amended): when the context namespace is non-empty, the resolved cluster is
non-empty and the second label of the hostname (if it has one) is non-empty, the Host
returned by `ParseHost` satisfies: `CompleteInput == true` implies `Namespace != ""` and
`Cluster != ""`; the Host returned by `GetHost` satisfies: `CompleteInput == true` implies
`Namespace != ""`, and also `Cluster != ""` when the cluster argument is non-empty or the
hostname does not have exactly two labels. -/
theorem complete_fields_nonempty (d hostName nspace cluster : String) (known : List String)
    (hns : nspace ≠ "") (hcl : resolve d cluster ≠ "")
    (hlab : ∀ p, (strings.Split hostName '.')[1]? = some p → p ≠ "") :
    (∃ h, ParseHost d hostName nspace cluster = some h
        ∧ (h.CompleteInput = true → h.Namespace ≠ "" ∧ h.Cluster ≠ ""))
      ∧ (∃ h, GetHost d hostName nspace cluster known = some h
        ∧ (h.CompleteInput = true → h.Namespace ≠ ""
            ∧ (cluster ≠ "" ∨ (strings.Split hostName '.').length ≠ 2 → h.Cluster ≠ ""))) := by
  have hP : ∃ h, ParseHost d hostName nspace cluster = some h
      ∧ (h.CompleteInput = true → h.Namespace ≠ "" ∧ h.Cluster ≠ "") := by
    rcases ParseHost_cases d hostName nspace cluster with
      ⟨p0, _, hp⟩ | ⟨p0, p1, p2, tl, hsp, _, hp⟩ | ⟨_, hp⟩
    · exact ⟨_, hp, fun _ => ⟨hns, hcl⟩⟩
    · exact ⟨_, hp, fun _ => ⟨hlab p1 (by simp [hsp]), hcl⟩⟩
    · exact ⟨_, hp, fun hc => absurd hc (by simp)⟩
  refine ⟨hP, ?_⟩
  rcases GetHost_cases d hostName nspace cluster known with ⟨p0, p1, hsp, _, hg⟩ | hg
  · refine ⟨_, hg, fun _ => ⟨hlab p1 (by simp [hsp]), fun hor => ?_⟩⟩
    rcases hor with hne | hlen
    · exact hne
    · exact absurd (by simp [hsp]) hlen
  · obtain ⟨h, hp, himp⟩ := hP
    exact ⟨h, hg.trans hp, fun hc => ⟨(himp hc).1, fun _ => (himp hc).2⟩⟩

theorem complete_fields_nonempty_witness :
    "other-ns" ≠ "" ∧ resolve "svc.cluster.local" "" ≠ ""
      ∧ (∀ p, (strings.Split "reviews.bookinfo.svc.cluster.local" '.')[1]? = some p → p ≠ "")
      ∧ (∃ h, ParseHost "svc.cluster.local" "reviews.bookinfo.svc.cluster.local" "other-ns" ""
            = some h
          ∧ (h.CompleteInput = true → h.Namespace ≠ "" ∧ h.Cluster ≠ ""))
      ∧ (∃ h, GetHost "svc.cluster.local" "reviews.bookinfo.svc.cluster.local" "other-ns" ""
            ["bookinfo"] = some h
          ∧ (h.CompleteInput = true → h.Namespace ≠ ""
              ∧ (("" : String) ≠ ""
                  ∨ (strings.Split "reviews.bookinfo.svc.cluster.local" '.').length ≠ 2
                → h.Cluster ≠ ""))) :=
  have hlab : ∀ p, (strings.Split "reviews.bookinfo.svc.cluster.local" '.')[1]? = some p
      → p ≠ "" := by
    intro p hp
    have h1 : (strings.Split "reviews.bookinfo.svc.cluster.local" '.')[1]? = some "bookinfo" := by
      decide
    rw [h1] at hp
    rw [← Option.some.inj hp]
    decide
  ⟨by decide, by decide, hlab,
    complete_fields_nonempty "svc.cluster.local" "reviews.bookinfo.svc.cluster.local" "other-ns"
      "" ["bookinfo"] (by decide) (by decide) hlab⟩

/-- C9: for every input, `ParseHost` returns a Host and `GetHost` returns a Host, and a
returned Host with `CompleteInput == false` has `Namespace == ""`, `Cluster == ""` and a
Service equal to the input hostname. -/
theorem incomplete_fields (d hostName nspace cluster : String) (known : List String) :
    (∃ h, ParseHost d hostName nspace cluster = some h
        ∧ (h.CompleteInput = false
            → h.Namespace = "" ∧ h.Cluster = "" ∧ h.Service = hostName))
      ∧ (∃ h, GetHost d hostName nspace cluster known = some h
        ∧ (h.CompleteInput = false
            → h.Namespace = "" ∧ h.Cluster = "" ∧ h.Service = hostName)) := by
  have hP : ∃ h, ParseHost d hostName nspace cluster = some h
      ∧ (h.CompleteInput = false
          → h.Namespace = "" ∧ h.Cluster = "" ∧ h.Service = hostName) := by
    rcases ParseHost_cases d hostName nspace cluster with
      ⟨p0, _, hp⟩ | ⟨p0, p1, p2, tl, _, _, hp⟩ | ⟨_, hp⟩
    · exact ⟨_, hp, fun hc => absurd hc (by simp)⟩
    · exact ⟨_, hp, fun hc => absurd hc (by simp)⟩
    · exact ⟨_, hp, fun _ => ⟨rfl, rfl, rfl⟩⟩
  refine ⟨hP, ?_⟩
  rcases GetHost_cases d hostName nspace cluster known with ⟨p0, p1, _, _, hg⟩ | hg
  · exact ⟨_, hg, fun hc => absurd hc (by simp)⟩
  · obtain ⟨h, hp, himp⟩ := hP
    exact ⟨h, hg.trans hp, himp⟩

/-- C10 (counterexample): a non-empty hostname that starts with "." can give an empty
Service: `ParseHost` on `.bookinfo.svc.cluster.local` and `GetHost` on `.bookinfo` both
return a complete Host whose Service is the empty first label. -/
theorem empty_service_of_leading_dot :
    ".bookinfo.svc.cluster.local" ≠ ""
      ∧ ParseHost "svc.cluster.local" ".bookinfo.svc.cluster.local" "default" "svc.cluster.local"
        = some ⟨"", "bookinfo", "svc.cluster.local", true⟩
      ∧ ".bookinfo" ≠ ""
      ∧ GetHost "svc.cluster.local" ".bookinfo" "default" "svc.cluster.local" ["bookinfo"]
        = some ⟨"", "bookinfo", "svc.cluster.local", true⟩ := by
  decide

/-- C10 (amended): for every non-empty hostname that does not start with ".", and every
namespace, cluster and namespace list, `ParseHost` returns a Host and `GetHost` returns a
Host, each with a non-empty Service field. -/
theorem service_nonempty (d hostName nspace cluster : String) (known : List String)
    (hne : hostName ≠ "") (hdot : hostName.data.head? ≠ some '.') :
    (∃ h, ParseHost d hostName nspace cluster = some h ∧ h.Service ≠ "")
      ∧ (∃ h, GetHost d hostName nspace cluster known = some h ∧ h.Service ≠ "") := by
  have hP : ∃ h, ParseHost d hostName nspace cluster = some h ∧ h.Service ≠ "" := by
    rcases ParseHost_cases d hostName nspace cluster with
      ⟨p0, hsp, hp⟩ | ⟨p0, p1, p2, tl, hsp, _, hp⟩ | ⟨_, hp⟩
    · exact ⟨_, hp, Split_head_ne_empty hostName p0 _ '.' hne hdot hsp⟩
    · exact ⟨_, hp, Split_head_ne_empty hostName p0 _ '.' hne hdot hsp⟩
    · exact ⟨_, hp, hne⟩
  refine ⟨hP, ?_⟩
  rcases GetHost_cases d hostName nspace cluster known with ⟨p0, p1, hsp, _, hg⟩ | hg
  · exact ⟨_, hg, Split_head_ne_empty hostName p0 _ '.' hne hdot hsp⟩
  · obtain ⟨h, hp, hs⟩ := hP
    exact ⟨h, hg.trans hp, hs⟩

theorem service_nonempty_witness :
    "reviews.bookinfo" ≠ "" ∧ "reviews.bookinfo".data.head? ≠ some '.'
      ∧ (∃ h, ParseHost "svc.cluster.local" "reviews.bookinfo" "default" "" = some h
          ∧ h.Service ≠ "")
      ∧ (∃ h, GetHost "svc.cluster.local" "reviews.bookinfo" "default" "" ["bookinfo"] = some h
          ∧ h.Service ≠ "") :=
  ⟨by decide, by decide,
    service_nonempty "svc.cluster.local" "reviews.bookinfo" "default" "" ["bookinfo"]
      (by decide) (by decide)⟩

/-! ## `ParseHost` commits only on a confirmed suffix -/

/-- C11 (counterexample): with an empty configured identity domain and an empty cluster
argument, the hostname `reviews.bookinfo.` (three labels, the last one empty) is parsed as
a complete Host although its candidate cluster suffix, `labels[2:]` joined with ".", is
the empty string. -/
theorem complete_with_empty_suffix :
    2 ≤ (strings.Split "reviews.bookinfo." '.').length
      ∧ ParseHost "" "reviews.bookinfo." "default" "" = some ⟨"reviews", "bookinfo", "", true⟩
      ∧ strings.Join ((strings.Split "reviews.bookinfo." '.').drop 2) "." = "" := by
  decide

/-- C11 (amended): for every hostname with two or more labels, if `ParseHost` returns a
Host with `CompleteInput == true` then the hostname has three or more labels and the
candidate cluster suffix (`labels[2:]` joined with ".") equals the resolved cluster; the
suffix is non-empty whenever the resolved cluster is non-empty. -/
theorem ParseHost_complete_suffix (d hostName nspace cluster : String) (h : Host)
    (hlen : 2 ≤ (strings.Split hostName '.').length)
    (hp : ParseHost d hostName nspace cluster = some h) (hc : h.CompleteInput = true) :
    3 ≤ (strings.Split hostName '.').length
      ∧ strings.Join ((strings.Split hostName '.').drop 2) "." = resolve d cluster
      ∧ (resolve d cluster ≠ ""
          → strings.Join ((strings.Split hostName '.').drop 2) "." ≠ "") := by
  rcases ParseHost_cases d hostName nspace cluster with
    ⟨p0, hsp, _⟩ | ⟨p0, p1, p2, tl, hsp, hj, _⟩ | ⟨_, hq⟩
  · rw [hsp] at hlen
    exact absurd hlen (by simp)
  · have hd : (strings.Split hostName '.').drop 2 = p2 :: tl := by simp [hsp]
    rw [hd, hj]
    exact ⟨by simp [hsp], rfl, fun hne => hne⟩
  · rw [hq] at hp
    have hh : h = ⟨hostName, "", "", false⟩ := (Option.some.inj hp).symm
    rw [hh] at hc
    exact absurd hc (by simp)

theorem ParseHost_complete_suffix_witness :
    2 ≤ (strings.Split "reviews.bookinfo.svc.cluster.local" '.').length
      ∧ ParseHost "svc.cluster.local" "reviews.bookinfo.svc.cluster.local" "default" ""
          = some ⟨"reviews", "bookinfo", "svc.cluster.local", true⟩
      ∧ 3 ≤ (strings.Split "reviews.bookinfo.svc.cluster.local" '.').length
      ∧ strings.Join ((strings.Split "reviews.bookinfo.svc.cluster.local" '.').drop 2) "."
          = resolve "svc.cluster.local" ""
      ∧ (resolve "svc.cluster.local" "" ≠ ""
          → strings.Join ((strings.Split "reviews.bookinfo.svc.cluster.local" '.').drop 2) "."
              ≠ "") :=
  ⟨by decide, by decide,
    ParseHost_complete_suffix "svc.cluster.local" "reviews.bookinfo.svc.cluster.local"
      "default" "" ⟨"reviews", "bookinfo", "svc.cluster.local", true⟩
      (by decide) (by decide) rfl⟩

/-! ## The dotted form -/

/-- C12: for every Host `h`, whatever its `CompleteInput` flag, `h.String()` is
`h.Service ++ "." ++ h.Namespace ++ "." ++ h.Cluster`; and whenever `ParseHost` returns
`h` with `CompleteInput == false`, `h.String()` is the hostname followed by "..". -/
theorem Host_String_format (h : Host) :
    h.String = h.Service ++ "." ++ h.Namespace ++ "." ++ h.Cluster
      ∧ ∀ d hostName nspace cluster : String,
          ParseHost d hostName nspace cluster = some h → h.CompleteInput = false
            → h.String = hostName ++ ".." := by
  refine ⟨rfl, ?_⟩
  intro d hostName nspace cluster hp hc
  rcases ParseHost_cases d hostName nspace cluster with
    ⟨p0, _, hq⟩ | ⟨p0, p1, p2, tl, _, _, hq⟩ | ⟨_, hq⟩
  · rw [hq] at hp
    rw [← Option.some.inj hp] at hc
    exact absurd hc (by simp)
  · rw [hq] at hp
    rw [← Option.some.inj hp] at hc
    exact absurd hc (by simp)
  · rw [hq] at hp
    rw [← Option.some.inj hp]
    apply String.ext
    simp [Host.String, String.data_append]

theorem Host_String_format_witness :
    ParseHost "svc.cluster.local" "www.external-api.com" "bookinfo" "svc.cluster.local"
        = some ⟨"www.external-api.com", "", "", false⟩
      ∧ Host.String ⟨"www.external-api.com", "", "", false⟩ = "www.external-api.com" ++ ".." :=
  ⟨by decide,
    (Host_String_format ⟨"www.external-api.com", "", "", false⟩).2 "svc.cluster.local"
      "www.external-api.com" "bookinfo" "svc.cluster.local" (by decide) rfl⟩

/-! ## Totality -/

/-- C13: for every hostname (the empty string and strings with leading, trailing or doubled
dots included) and every namespace, cluster and namespace list, splitting on "." yields at
least one label, and `ParseHost` and `GetHost` each return a Host: no index or slice of
the split labels is out of range. -/
theorem ParseHost_GetHost_total (d hostName nspace cluster : String) (known : List String) :
    1 ≤ (strings.Split hostName '.').length
      ∧ (∃ h, ParseHost d hostName nspace cluster = some h)
      ∧ (∃ h, GetHost d hostName nspace cluster known = some h) := by
  have hP : ∃ h, ParseHost d hostName nspace cluster = some h := by
    rcases ParseHost_cases d hostName nspace cluster with
      ⟨p0, _, hq⟩ | ⟨p0, p1, p2, tl, _, _, hq⟩ | ⟨_, hq⟩
    · exact ⟨_, hq⟩
    · exact ⟨_, hq⟩
    · exact ⟨_, hq⟩
  refine ⟨by simp [strings.Split], hP, ?_⟩
  rcases GetHost_cases d hostName nspace cluster known with ⟨p0, p1, _, _, hg⟩ | hg
  · exact ⟨_, hg⟩
  · obtain ⟨h, hq⟩ := hP
    exact ⟨h, hg.trans hq⟩

/-! ## The type registry: plural to kind and back -/

theorem mem_of_lookup_eq_some (l : List (String × String)) (a b : String)
    (h : l.lookup a = some b) : (a, b) ∈ l := by
  induction l with
  | nil => simp at h
  | cons e l ih =>
    obtain ⟨x, y⟩ := e
    by_cases hax : a = x
    · subst hax
      simp [List.lookup] at h
      simp [h]
    · have hb : (a == x) = false := by simpa using hax
      simp only [List.lookup, hb] at h
      exact List.mem_cons_of_mem _ (ih h)

theorem lookup_of_mem_plurals :
    ∀ e ∈ adapterPlurals ++ templatePlurals, PluralType.lookup e.2 = some e.1 := by
  decide

theorem PluralType_keys_nodup : (PluralType.map Prod.fst).Nodup := by
  decide

theorem PluralType_entries_inj :
    ∀ e ∈ PluralType, ∀ f ∈ PluralType, e.2 = f.2 → e.1 = f.1 := by
  decide

theorem PluralType_entries_registered :
    ∀ e ∈ PluralType,
      (registeredTypes.filter (fun t => t.objectKind = e.2)).length = 1 := by
  decide

theorem registeredTypes_in_PluralType :
    ∀ e ∈ registeredTypes, ∃ f ∈ PluralType, PluralType.lookup f.1 = some e.objectKind := by
  decide

/-- C14: for every kind `k` and plural `p`, if `adapterPlurals` maps `k` to `p` or
`templatePlurals` maps `k` to `p`, then `PluralType` maps `p` to `k`. -/
theorem plural_kind_agree (k p : String)
    (h : adapterPlurals.lookup k = some p ∨ templatePlurals.lookup k = some p) :
    PluralType.lookup p = some k := by
  have hm : (k, p) ∈ adapterPlurals ++ templatePlurals := by
    rcases h with h | h
    · exact List.mem_append.2 (Or.inl (mem_of_lookup_eq_some _ k p h))
    · exact List.mem_append.2 (Or.inr (mem_of_lookup_eq_some _ k p h))
  exact lookup_of_mem_plurals (k, p) hm

theorem plural_kind_agree_witness :
    (adapterPlurals.lookup "handler" = some "handlers"
        ∨ templatePlurals.lookup "handler" = some "handlers")
      ∧ PluralType.lookup "handlers" = some "handler" :=
  ⟨Or.inl (by decide), plural_kind_agree "handler" "handlers" (Or.inl (by decide))⟩

/-! ## Projection undoes FQDN parsing -/

/-- C15: for every hostname with three or more labels and every namespace and cluster, if
`ParseHost` returns a Host `h` with `CompleteInput == true` then `h.String()` is the
hostname. -/
theorem ParseHost_String_fqdn (d hostName nspace cluster : String) (h : Host)
    (hlen : 3 ≤ (strings.Split hostName '.').length)
    (hp : ParseHost d hostName nspace cluster = some h) (hc : h.CompleteInput = true) :
    h.String = hostName := by
  rcases ParseHost_cases d hostName nspace cluster with
    ⟨p0, hsp, _⟩ | ⟨p0, p1, p2, tl, hsp, hj, hq⟩ | ⟨_, hq⟩
  · rw [hsp] at hlen
    exact absurd hlen (by simp)
  · rw [hq] at hp
    rw [← Option.some.inj hp, String_assoc_dot, ← hj]
    have hjoin := strings.Join_Split_dot hostName
    rw [hsp] at hjoin
    exact hjoin
  · rw [hq] at hp
    rw [← Option.some.inj hp] at hc
    exact absurd hc (by simp)

theorem ParseHost_String_fqdn_witness :
    3 ≤ (strings.Split "reviews.bookinfo.svc.cluster.local" '.').length
      ∧ ParseHost "svc.cluster.local" "reviews.bookinfo.svc.cluster.local" "default" ""
          = some ⟨"reviews", "bookinfo", "svc.cluster.local", true⟩
      ∧ Host.String ⟨"reviews", "bookinfo", "svc.cluster.local", true⟩
          = "reviews.bookinfo.svc.cluster.local" :=
  ⟨by decide, by decide,
    ParseHost_String_fqdn "svc.cluster.local" "reviews.bookinfo.svc.cluster.local" "default" ""
      ⟨"reviews", "bookinfo", "svc.cluster.local", true⟩ (by decide) (by decide) rfl⟩

/-! ## The namespace list as a set -/

/-- C16: `includes(list, x)` is true exactly when `x` is an element of `list`; and for two
namespace lists with the same elements (in any order, with any duplicates), `GetHost`
returns the same Host for every hostname, namespace and cluster. -/
theorem GetHost_list_as_set (known known2 : List String)
    (hset : ∀ x, x ∈ known ↔ x ∈ known2) :
    (∀ (l : List String) (x : String), includes l x = true ↔ x ∈ l)
      ∧ ∀ d hostName nspace cluster : String,
          GetHost d hostName nspace cluster known = GetHost d hostName nspace cluster known2
            ∧ ∃ h, GetHost d hostName nspace cluster known = some h := by
  refine ⟨includes_eq_true_iff, ?_⟩
  intro d hostName nspace cluster
  have hinc : includes known = includes known2 := by
    funext x
    apply Bool.eq_iff_iff.2
    rw [includes_eq_true_iff, includes_eq_true_iff]
    exact hset x
  refine ⟨by simp only [GetHost, hinc], ?_⟩
  rcases GetHost_cases d hostName nspace cluster known with ⟨p0, p1, _, _, hg⟩ | hg
  · exact ⟨_, hg⟩
  · rcases ParseHost_cases d hostName nspace cluster with
      ⟨p0, _, hq⟩ | ⟨p0, p1, p2, tl, _, _, hq⟩ | ⟨_, hq⟩
    · exact ⟨_, hg.trans hq⟩
    · exact ⟨_, hg.trans hq⟩
    · exact ⟨_, hg.trans hq⟩

theorem GetHost_list_as_set_witness :
    (∀ x, x ∈ ["bookinfo", "default"] ↔ x ∈ ["default", "bookinfo", "default"])
      ∧ GetHost "svc.cluster.local" "reviews.bookinfo" "istio-system" "" ["bookinfo", "default"]
          = GetHost "svc.cluster.local" "reviews.bookinfo" "istio-system" ""
              ["default", "bookinfo", "default"]
      ∧ GetHost "svc.cluster.local" "reviews.bookinfo" "istio-system" "" ["bookinfo", "default"]
          = some ⟨"reviews", "bookinfo", "", true⟩ :=
  have hset : ∀ x, x ∈ ["bookinfo", "default"] ↔ x ∈ ["default", "bookinfo", "default"] := by
    intro x
    simp only [List.mem_cons, List.mem_singleton, List.not_mem_nil, or_false]
    tauto
  ⟨hset,
    ((GetHost_list_as_set ["bookinfo", "default"] ["default", "bookinfo", "default"] hset).2
      "svc.cluster.local" "reviews.bookinfo" "istio-system" "").1,
    by decide⟩

/-! ## `PluralType` and the registered kinds -/

/-- C17: no two plural keys of `PluralType` map to the same kind; every value of
`PluralType` is the `objectKind` of exactly one entry of the nine per-group type tables;
and every `objectKind` in those tables is a value of `PluralType`. -/
theorem PluralType_bijection :
    (∀ p q k : String, PluralType.lookup p = some k → PluralType.lookup q = some k → p = q)
      ∧ (∀ p k : String, PluralType.lookup p = some k
          → (registeredTypes.filter (fun e => e.objectKind = k)).length = 1)
      ∧ (∀ e ∈ registeredTypes, ∃ p : String, PluralType.lookup p = some e.objectKind) := by
  refine ⟨?_, ?_, ?_⟩
  · intro p q k hp hq
    exact PluralType_entries_inj (p, k) (mem_of_lookup_eq_some _ p k hp)
      (q, k) (mem_of_lookup_eq_some _ q k hq) rfl
  · intro p k hp
    exact PluralType_entries_registered (p, k) (mem_of_lookup_eq_some _ p k hp)
  · intro e he
    obtain ⟨f, _, hf⟩ := registeredTypes_in_PluralType e he
    exact ⟨f.1, hf⟩

theorem PluralType_bijection_witness :
    PluralType.lookup "gateways" = some "Gateway"
      ∧ (registeredTypes.filter (fun e => e.objectKind = "Gateway")).length = 1 :=
  ⟨by decide, PluralType_bijection.2.1 "gateways" "Gateway" (by decide)⟩

end kubernetes
